import Mathlib

/-!
Verification development for the `martinlsm/chess` engine core.

The Rust sources are shallowly embedded here:
* `src/color.rs`   → `Chess.Color`
* `src/board.rs`   → namespace `Chess.Board` (enum-piece revision: `Piece`,
  `BoardImpl`, `new_board`, `move_piece`, `valid_move`, `valid_pawn_move`,
  `valid_knight_move`, `perpendicular_path`, `get_piece`)
* `src/piece.rs`   → namespace `Chess.PieceBits` (packed `u8` piece codec)
* `src/fen.rs` + `src/square.rs` → namespace `Chess.Fen` (FEN codec)

Conventions: Rust `usize` is `Nat`; Rust slices/arrays are `List`s and an
out-of-bounds index (a Rust panic) surfaces as `Option.none`; a `todo!()`,
`assert!` failure or arithmetic underflow (a debug-build panic) likewise
surfaces as `Option.none`; fallible Rust functions returning
`Result<T, Box<dyn Error>>` become `Except String T`.
-/

namespace Chess

/-- `src/color.rs`: `enum Color { WHITE, BLACK }`. -/
inductive Color where
  | WHITE
  | BLACK
deriving DecidableEq, Repr

/-- `src/board.rs` line 35: `pub struct Square(usize, usize)` — a
(file, rank) pair; `fst` is the file (column), `snd` the rank (row). -/
structure Square where
  fst : Nat
  snd : Nat
deriving DecidableEq, Repr

deriving instance DecidableEq for Except

namespace Board

/-- The piece type of the enum revision of the engine, as used by
`src/board.rs` (`Piece::PAWN(Color, bool)`, `Piece::ROOK(Color, bool)`,
`Piece::KNIGHT(Color)`, `Piece::BISHOP(Color)`, `Piece::QUEEN(Color)`,
`Piece::KING(Color, bool)`; the `bool` is the has-moved flag). -/
inductive Piece where
  | PAWN (c : Color) (has_moved : Bool)
  | ROOK (c : Color) (has_moved : Bool)
  | KNIGHT (c : Color)
  | BISHOP (c : Color)
  | QUEEN (c : Color)
  | KING (c : Color) (has_moved : Bool)
deriving DecidableEq, Repr

/-- Modelled from the spec: `src/board.rs` imports `get_color` from
`crate::piece`, which is absent from the sources in `src/` (that file holds
a different revision).  Per the spec a piece's *color* facet is
`{white, black}`; every enum variant carries it as its first field. -/
def get_color : Piece → Color
  | .PAWN c _ => c
  | .ROOK c _ => c
  | .KNIGHT c => c
  | .BISHOP c => c
  | .QUEEN c => c
  | .KING c _ => c

/-- Modelled from the spec: `src/board.rs` imports `tag_as_moved` from
`crate::piece`, which is absent from the sources in `src/`.  Per the spec
the *moved* facet is a boolean, "default false at game start and set true
once the piece has relocated"; variants without a flag are returned
unchanged.  (The repository's own tests pin the pawn case: after a move the
pawn is `Piece::PAWN(color, true)`.) -/
def tag_as_moved : Piece → Piece
  | .PAWN c _ => .PAWN c true
  | .ROOK c _ => .ROOK c true
  | .KING c _ => .KING c true
  | p => p

/-- The 8×8 grid `[[Option<Piece>; 8]; 8]`, indexed `pieces[file][rank]`. -/
abbrev Grid := List (List (Option Piece))

/-- Rust `self.pieces[sq.0][sq.1]` (a read).  `none` models the
index-out-of-bounds panic. -/
def idx (g : Grid) (sq : Square) : Option (Option Piece) :=
  (g.get? sq.fst).bind fun row => row.get? sq.snd

/-- Rust `self.pieces[sq.0][sq.1] = v` (a write).  All writes in
`src/board.rs` happen at indices already read or bounds-checked, so the
out-of-bounds case cannot be reached; `List.set` is a no-op there. -/
def setCell (g : Grid) (sq : Square) (v : Option Piece) : Grid :=
  match g.get? sq.fst with
  | none => g
  | some row => g.set sq.fst (row.set sq.snd v)

/-- `src/board.rs` lines 70-73: `struct BoardImpl` — the 8×8 grid plus the
side to move (`player_turn`). -/
structure BoardImpl where
  pieces : Grid
  player_turn : Color
deriving DecidableEq, Repr

/-- `src/board.rs` lines 80-82: `get_piece` — `self.pieces[sq.0][sq.1]`.
The outer `Option` is the panic layer: `none` means the array indexing
panicked (square component ≥ 8 / beyond the grid). -/
def get_piece (b : BoardImpl) (sq : Square) : Option (Option Piece) :=
  idx b.pieces sq

/-- `src/board.rs` lines 182-213: `perpendicular_path`.  Outer `none`
models the `assert!(from != to)` panic; inner `none` is the Rust `None`
(the two squares share neither file nor rank).  Note the source's
horizontal branch iterates *rank* coordinates (`from.1 + 1..to.1 + 1` and
`to.1..from.1`), which is preserved verbatim. -/
def perpendicular_path (fromSq toSq : Square) : Option (Option (List Square)) :=
  if fromSq = toSq then none
  else if fromSq.fst = toSq.fst then
    if fromSq.snd < toSq.snd then
      some (some ((List.range' (fromSq.snd + 1) (toSq.snd + 1 - (fromSq.snd + 1))).map
        fun x => ⟨fromSq.fst, x⟩))
    else
      some (some (((List.range' toSq.snd (fromSq.snd - toSq.snd)).reverse).map
        fun x => ⟨toSq.fst, x⟩))
  else if fromSq.snd = toSq.snd then
    if fromSq.fst < toSq.fst then
      some (some ((List.range' (fromSq.snd + 1) (toSq.snd + 1 - (fromSq.snd + 1))).map
        fun x => ⟨fromSq.fst, x⟩))
    else
      some (some (((List.range' toSq.snd (fromSq.snd - toSq.snd)).reverse).map
        fun x => ⟨fromSq.fst, x⟩))
  else some none

/-- `path.iter().all(|sq| self.pieces[sq.0][sq.1] == None)` from
`valid_pawn_move` (line 149).  Short-circuits on the first occupied square
exactly as Rust's `all`; `none` models an indexing panic. -/
def cellsEmpty (g : Grid) : List Square → Option Bool
  | [] => some true
  | sq :: rest =>
    match idx g sq with
    | none => none
    | some none => cellsEmpty g rest
    | some (some _) => some false

/-- `src/board.rs` lines 173-178: `valid_knight_move`. -/
def valid_knight_move (fromSq toSq : Square) : Bool :=
  let file_diff := ((fromSq.fst : Int) - (toSq.fst : Int)).natAbs
  let rank_diff := ((fromSq.snd : Int) - (toSq.snd : Int)).natAbs
  (file_diff == 2 && rank_diff == 1) || (file_diff == 1 && rank_diff == 2)

/-- `src/board.rs` lines 136-171: `valid_pawn_move`.  `none` models a
panic: the `assert!` on line 154, a `usize` underflow of `from.1 - 1` in
the black-capture test (debug build), or out-of-bounds indexing. -/
def valid_pawn_move (b : BoardImpl) (color : Color) (has_moved : Bool)
    (fromSq toSq : Square) : Option Bool :=
  match perpendicular_path fromSq toSq with
  | none => none
  | some (some path) =>
    if path.length > 2 ∨ (path.length > 1 ∧ has_moved = true) then some false
    else if (color = .WHITE ∧ toSq.snd ≤ fromSq.snd) ∨
            (color = .BLACK ∧ toSq.snd ≥ fromSq.snd) then some false
    else cellsEmpty b.pieces path
  | some none =>
    match idx b.pieces toSq with
    | none => none
    | some none => some false
    | some (some target) =>
      if get_color target = color then none
      else if color = .WHITE ∧ toSq.snd = fromSq.snd + 1 ∧
              ((toSq.fst : Int) - (fromSq.fst : Int)).natAbs = 1 then some true
      else if color = .BLACK then
        if fromSq.snd = 0 then none
        else if toSq.snd = fromSq.snd - 1 ∧
                ((toSq.fst : Int) - (fromSq.fst : Int)).natAbs = 1 then some true
        else some false
      else some false

/-- `src/board.rs` lines 113-134: `valid_move`.  `none` models a panic —
either a `todo!()` branch (bishop, king, queen, rook) or one propagated
from `valid_pawn_move`. -/
def valid_move (b : BoardImpl) (piece : Piece) (fromSq toSq : Square) : Option Bool :=
  if fromSq = toSq then some false
  else if 8 ≤ toSq.fst ∨ 8 ≤ toSq.snd then some false
  else
    match idx b.pieces toSq with
    | none => none
    | some cell =>
      if some (get_color piece) = cell.map get_color then some false
      else
        match piece with
        | .BISHOP _ => none -- todo!()
        | .KING _ _ => none -- todo!()
        | .KNIGHT _ => some (valid_knight_move fromSq toSq)
        | .PAWN c m => valid_pawn_move b c m fromSq toSq
        | .QUEEN _ => none -- todo!()
        | .ROOK _ _ => none -- todo!()

/-- `src/board.rs` lines 84-109: `move_piece`.  `&mut self` becomes
explicit state passing: the result pairs the post-call board with the Rust
`Result<(), _>`; the outer `none` is a panic.  Every early `return Err`
happens before any mutation, so it pairs the untouched input board with the
error.  (Line 101's second `tag_as_moved` call acts on a by-value copy of
the cell and is a no-op on the board, so it has no counterpart here.) -/
def move_piece (b : BoardImpl) (fromSq toSq : Square) :
    Option (BoardImpl × Except String Unit) :=
  match idx b.pieces fromSq with
  | none => none
  | some none => some (b, .error "Square is empty")
  | some (some piece) =>
    if get_color piece ≠ b.player_turn then
      some (b, .error "Not this player's turn to move")
    else
      match valid_move b piece fromSq toSq with
      | none => none
      | some false => some (b, .error "Invalid move")
      | some true =>
        let pieces1 := setCell b.pieces toSq (some (tag_as_moved piece))
        let pieces2 := setCell pieces1 fromSq none
        some ({ pieces := pieces2,
                player_turn := if b.player_turn = .WHITE then .BLACK else .WHITE },
              .ok ())

/-- `true` iff `move_piece` returns `Ok(())` (neither an error nor a
panic): the move is in the board's legal set. -/
def moveOk (b : BoardImpl) (fromSq toSq : Square) : Bool :=
  match move_piece b fromSq toSq with
  | some (_, .ok ()) => true
  | _ => false

/-- `src/board.rs` lines 37-68: `new_board` — the standard start position,
white to move.  The grid is column-major: `pieces[file][rank]`. -/
def backRank (c : Color) (file : Nat) : Option Piece :=
  if file = 0 ∨ file = 7 then some (.ROOK c false)
  else if file = 1 ∨ file = 6 then some (.KNIGHT c)
  else if file = 2 ∨ file = 5 then some (.BISHOP c)
  else if file = 3 then some (.QUEEN c)
  else some (.KING c false)

def new_board : BoardImpl where
  pieces := (List.range 8).map fun file =>
    [backRank .WHITE file, some (.PAWN .WHITE false), none, none, none, none,
     some (.PAWN .BLACK false), backRank .BLACK file]
  player_turn := .WHITE

/-- The 8×8 well-formedness invariant of the Rust array
`[[Option<Piece>; 8]; 8]` (automatic in Rust, explicit for `List` grids). -/
def WF (b : BoardImpl) : Prop :=
  b.pieces.length = 8 ∧ ∀ row ∈ b.pieces, row.length = 8

instance (b : BoardImpl) : Decidable (WF b) := by
  unfold WF; infer_instance

/-- Read a cell at signed coordinates: `none` when off the board or the
square is empty.  (Support for the spec-modelled check detector below.) -/
def cellAt (b : BoardImpl) (x y : Int) : Option Piece :=
  if 0 ≤ x ∧ x < 8 ∧ 0 ≤ y ∧ y < 8 then
    (((b.pieces.get? x.toNat).getD []).get? y.toNat).join
  else none

/-- Modelled from the spec: the "walk until piece or edge" ray primitive of
§4.4/§4.5 (the check detector is absent from the sources in `src/`).
Returns the first piece encountered walking from `(x, y)` in direction
`(dx, dy)`; the fuel (8 suffices on an 8×8 board) makes it structural. -/
def rayFirst (b : BoardImpl) : Int → Int → Int → Int → Nat → Option Piece
  | _, _, _, _, 0 => none
  | x, y, dx, dy, n + 1 =>
    if 0 ≤ x ∧ x < 8 ∧ 0 ≤ y ∧ y < 8 then
      match cellAt b x y with
      | some p => some p
      | none => rayFirst b (x + dx) (y + dy) dx dy n
    else none

def enemy : Color → Color
  | .WHITE => .BLACK
  | .BLACK => .WHITE

def orthDirs : List (Int × Int) := [(1, 0), (-1, 0), (0, 1), (0, -1)]

def diagDirs : List (Int × Int) := [(1, 1), (1, -1), (-1, 1), (-1, -1)]

def knightOffs : List (Int × Int) :=
  [(1, 2), (1, -2), (-1, 2), (-1, -2), (2, 1), (2, -1), (-2, 1), (-2, -1)]

/-- Modelled from the spec (§4.5): locate the king by scanning the grid. -/
def kingSquare (b : BoardImpl) (c : Color) : Option (Nat × Nat) :=
  (List.range 8).findSome? fun f =>
    (List.range 8).findSome? fun r =>
      match idx b.pieces ⟨f, r⟩ with
      | some (some (.KING c' _)) => if c' = c then some (f, r) else none
      | _ => none

/-- Modelled from the spec: `in_check(board, color)` — the check detector of
§4.5, absent from the sources in `src/`.  The king is located by scan, then
each independent attack vector is tested: an opposing pawn on the two
diagonals it attacks from, an adjacent opposing king, an opposing knight on
a knight offset, an opposing bishop/queen on an unobstructed diagonal ray,
an opposing rook/queen on an unobstructed orthogonal ray.  With no king on
the board (a contract violation per the spec) it reports `false`. -/
def in_check (b : BoardImpl) (c : Color) : Bool :=
  match kingSquare b c with
  | none => false
  | some (kf0, kr0) =>
    let e := enemy c
    let kf : Int := kf0
    let kr : Int := kr0
    let pawnDir : Int := if c = .WHITE then 1 else -1
    let pawnThreat := ([(-1 : Int), 1]).any fun df =>
      match cellAt b (kf + df) (kr + pawnDir) with
      | some (.PAWN c' _) => c' = e
      | _ => false
    let kingAdj := (diagDirs ++ orthDirs).any fun d =>
      match cellAt b (kf + d.1) (kr + d.2) with
      | some (.KING c' _) => c' = e
      | _ => false
    let knightThreat := knightOffs.any fun d =>
      match cellAt b (kf + d.1) (kr + d.2) with
      | some (.KNIGHT c') => c' = e
      | _ => false
    let diagThreat := diagDirs.any fun d =>
      match rayFirst b (kf + d.1) (kr + d.2) d.1 d.2 8 with
      | some (.BISHOP c') => c' = e
      | some (.QUEEN c') => c' = e
      | _ => false
    let orthThreat := orthDirs.any fun d =>
      match rayFirst b (kf + d.1) (kr + d.2) d.1 d.2 8 with
      | some (.ROOK c' _) => c' = e
      | some (.QUEEN c') => c' = e
      | _ => false
    pawnThreat || kingAdj || knightThreat || diagThreat || orthThreat

/-! Concrete fixture boards used by individual claims. -/

def emptyCol : List (Option Piece) := List.replicate 8 none

/-- A pin position: white king e1, white knight e2, black rook e8, white to
move.  The knight move e2→c3 is pseudo-legal but exposes the king. -/
def pinBoard : BoardImpl where
  pieces :=
    [emptyCol, emptyCol, emptyCol, emptyCol,
     [some (.KING .WHITE false), some (.KNIGHT .WHITE), none, none, none, none,
      none, some (.ROOK .BLACK false)],
     emptyCol, emptyCol, emptyCol]
  player_turn := .WHITE

/-- An otherwise-empty board with a single white knight on `(f, r)`,
white to move. -/
def knightBoard (f r : Nat) : BoardImpl where
  pieces := (List.range 8).map fun i =>
    (List.range 8).map fun j =>
      if i = f ∧ j = r then some (.KNIGHT .WHITE) else none
  player_turn := .WHITE

/-- The destination set worded by the specification for the knight: "the
subset of the 8 offset squares that lie on the board", offsets
{±1, ±2}/{±2, ±1}.  (Spec-side definition, to be compared with the legal
set computed by `move_piece`.) -/
def specKnightTargets (f r : Nat) : List (Nat × Nat) :=
  knightOffs.filterMap fun d =>
    let x := (f : Int) + d.1
    let y := (r : Int) + d.2
    if 0 ≤ x ∧ x < 8 ∧ 0 ≤ y ∧ y < 8 then some (x.toNat, y.toNat) else none

/-- A board whose only piece is an unmoved white pawn on d4 (file 3,
rank 3) — off the starting rank yet with `has_moved = false` (exactly what
`src/fen_parser.rs` `parse_piece` produces for any pawn placement). -/
def strayPawnBoard : BoardImpl where
  pieces :=
    [emptyCol, emptyCol, emptyCol,
     [none, none, none, some (.PAWN .WHITE false), none, none, none, none],
     emptyCol, emptyCol, emptyCol, emptyCol]
  player_turn := .WHITE

/-- A board whose only piece is a white bishop on a1, white to move. -/
def bishopBoard : BoardImpl where
  pieces :=
    [[some (.BISHOP .WHITE), none, none, none, none, none, none, none],
     emptyCol, emptyCol, emptyCol, emptyCol, emptyCol, emptyCol, emptyCol]
  player_turn := .WHITE

/-- The board produced by the successful call `move_piece(A2, A3)` on the
start position. -/
def afterStartA2A3 : BoardImpl :=
  ((move_piece new_board ⟨0, 1⟩ ⟨0, 2⟩).getD (new_board, .ok ())).1

/-- The board produced by the successful call `move_piece(e2, c3)` on
`pinBoard`. -/
def pinBoardAfter : BoardImpl :=
  ((move_piece pinBoard ⟨4, 1⟩ ⟨2, 2⟩).getD (pinBoard, .ok ())).1

/-- The piece kinds of claim C9: bishop, rook, queen, king — exactly the
`todo!()` arms of `valid_move`. -/
def sliderOrKing : Piece → Bool
  | .BISHOP _ => true
  | .ROOK _ _ => true
  | .QUEEN _ => true
  | .KING _ _ => true
  | _ => false

end Board

/-- Rust `char::to_uppercase` (resp. the source's
`to_uppercase().next().unwrap()`) restricted to the ASCII range the engine
feeds it: lowercase ASCII letters map up, everything else is unchanged. -/
def asciiToUpper (c : Char) : Char :=
  if 'a' ≤ c ∧ c ≤ 'z' then Char.ofNat (c.toNat - 32) else c

/-- Rust `char::is_uppercase` on the ASCII range. -/
def asciiIsUpper (c : Char) : Bool :=
  'A' ≤ c && c ≤ 'Z'

namespace PieceBits

/-- `src/piece.rs`: `pub type Piece = u8` — the packed encoding (bits 0..2
the kind, bit 3 the color, bit 4 the moved flag). -/
abbrev Piece := Nat

def BITS_NO_PIECE : Piece := 0
def BITS_PAWN : Piece := 1
def BITS_ROOK : Piece := 2
def BITS_KNIGHT : Piece := 3
def BITS_BISHOP : Piece := 4
def BITS_QUEEN : Piece := 5
def BITS_KING : Piece := 6
def BITS_WHITE : Piece := 0
def BITS_BLACK : Piece := 8
def BITS_UNMOVED : Piece := 0
def BITS_HAS_MOVED : Piece := 16

/-- `src/piece.rs` lines 37-39: `piece & 0b111`. -/
def piece_type (piece : Piece) : Piece := Nat.land piece 7

/-- `src/piece.rs` lines 41-43: `piece & (1 << 3)`. -/
def piece_color (piece : Piece) : Piece := Nat.land piece 8

/-- `src/piece.rs` lines 45-47: `is_piece` (note the source compares the
kind with `BITS_NO_PIECE`, so it is `true` exactly on the empty encoding). -/
def is_piece (piece : Piece) : Bool := piece_type piece == BITS_NO_PIECE

/-- `src/piece.rs` lines 49-64: `piece_to_letter`; `none` models the two
`panic!("Invalid piece bits")` arms. -/
def piece_to_letter (piece_bits : Piece) : Option Char :=
  let ch? : Option Char :=
    if piece_type piece_bits = BITS_BISHOP then some 'b'
    else if piece_type piece_bits = BITS_KING then some 'k'
    else if piece_type piece_bits = BITS_KNIGHT then some 'n'
    else if piece_type piece_bits = BITS_PAWN then some 'p'
    else if piece_type piece_bits = BITS_QUEEN then some 'q'
    else if piece_type piece_bits = BITS_ROOK then some 'r'
    else none
  match ch? with
  | none => none
  | some ch =>
    if piece_color piece_bits = BITS_WHITE then some (asciiToUpper ch)
    else if piece_color piece_bits = BITS_BLACK then some ch
    else none

/-- `src/piece.rs` lines 66-80: `letter_to_piece`.  The final line of the
source reads `Ok(color & piece_type)` — a bitwise AND — and is embedded
verbatim as `Nat.land`. -/
def letter_to_piece (letter : Char) : Except String Piece :=
  let pt? : Option Piece :=
    if asciiToUpper letter = 'B' then some BITS_BISHOP
    else if asciiToUpper letter = 'K' then some BITS_KING
    else if asciiToUpper letter = 'N' then some BITS_KNIGHT
    else if asciiToUpper letter = 'P' then some BITS_PAWN
    else if asciiToUpper letter = 'Q' then some BITS_QUEEN
    else if asciiToUpper letter = 'R' then some BITS_ROOK
    else none
  match pt? with
  | none => .error "Invalid piece type"
  | some pt =>
    let color := if asciiIsUpper letter then BITS_WHITE else BITS_BLACK
    .ok (Nat.land color pt)

end PieceBits

namespace Fen

open PieceBits

/-- Rust `str::split(sep)` over a `List Char`: `n` separators give `n + 1`
fields (the empty string splits to one empty field). -/
def splitChar (sep : Char) : List Char → List (List Char)
  | [] => [[]]
  | c :: rest =>
    if c = sep then [] :: splitChar sep rest
    else
      match splitChar sep rest with
      | [] => [[c]]
      | g :: gs => (c :: g) :: gs

/-- The placement grid `[[Piece; 8]; 8]` of the FEN revision,
`pieces[file][rank]`, `BITS_NO_PIECE` for empty. -/
abbrev PGrid := List (List PieceBits.Piece)

def emptyPGrid : PGrid := List.replicate 8 (List.replicate 8 BITS_NO_PIECE)

def setPCell (g : PGrid) (file rank : Nat) (v : PieceBits.Piece) : PGrid :=
  match g.get? file with
  | none => g
  | some row => g.set file (row.set rank v)

/-- Modelled from the spec: the `Board` struct of the FEN revision
(`crate::board::Board` as used by `src/fen.rs`, absent from `src/`): "an
8×8 mapping from Square to Piece …, a side_to_move color, and an optional
en_passant square". -/
structure FBoard where
  pieces : PGrid
  side_to_move : Nat
  en_passant : Option Square
deriving DecidableEq, Repr

/-- Modelled from the spec: that revision's `get_piece` —
"total function, always returns a value (the none piece for empty
squares)"; `export` only queries it at file, rank < 8, where it reads
`pieces[file][rank]`. -/
def fget_piece (b : FBoard) (sq : Square) : PieceBits.Piece :=
  (((b.pieces.get? sq.fst).getD []).get? sq.snd).getD BITS_NO_PIECE

/-- `src/fen.rs` lines 104-126: `import_piece`. -/
def import_piece (letter : Char) : Except String PieceBits.Piece :=
  let pt? : Option PieceBits.Piece :=
    if asciiToUpper letter = 'B' then some BITS_BISHOP
    else if asciiToUpper letter = 'K' then some BITS_KING
    else if asciiToUpper letter = 'N' then some BITS_KNIGHT
    else if asciiToUpper letter = 'P' then some BITS_PAWN
    else if asciiToUpper letter = 'Q' then some BITS_QUEEN
    else if asciiToUpper letter = 'R' then some BITS_ROOK
    else none
  match pt? with
  | none => .error "Invalid piece type"
  | some pt =>
    let color := if asciiIsUpper letter then BITS_WHITE else BITS_BLACK
    .ok (Nat.lor color pt)

/-- `src/fen.rs` lines 79-102: `import_rank` — the in-place grid mutation
becomes state passing; `next_piece_file` starts at 0; `'8'` breaks out of
the loop, `'1'..='7'` advances the file cursor, any other character must
be a piece letter placed at a file < 8. -/
def import_rank_go (rank_idx : Nat) :
    List Char → Nat → PGrid → Except String PGrid
  | [], _, g => .ok g
  | ch :: rest, next_piece_file, g =>
    if ch = '8' then .ok g
    else if '1' ≤ ch ∧ ch ≤ '7' then
      import_rank_go rank_idx rest (next_piece_file + (ch.toNat - 48)) g
    else if 8 ≤ next_piece_file then .error "Rank is invalid"
    else
      match import_piece ch with
      | .error e => .error e
      | .ok p =>
        import_rank_go rank_idx rest (next_piece_file + 1)
          (setPCell g next_piece_file rank_idx p)

def import_rank (rank_idx : Nat) (rank : List Char) (g : PGrid) :
    Except String PGrid :=
  import_rank_go rank_idx rank 0 g

def importRanks : List (Nat × List Char) → PGrid → Except String PGrid
  | [], g => .ok g
  | (ri, rank) :: rest, g =>
    match import_rank ri rank g with
    | .error e => .error e
    | .ok g2 => importRanks rest g2

/-- `src/fen.rs` lines 66-77: `import_piece_placement` — ranks are read
top-down: `zip((0..8).rev(), placement.split('/'))`. -/
def import_piece_placement (placement : List Char) : Except String PGrid :=
  importRanks (List.zip (List.range 8).reverse (splitChar '/' placement)) emptyPGrid

/-- `src/fen.rs` lines 128-144: `import_side_to_move`. -/
def import_side_to_move (s : List Char) : Except String Nat :=
  if s.length ≠ 1 then .error "Invalid side-to-move field"
  else
    match s.get? 0 with
    | some 'w' => .ok BITS_WHITE
    | some 'b' => .ok BITS_BLACK
    | _ => .error "Invalid side-to-move field"

/-- `src/square.rs` lines 33-53: `Square::from` (the error labels "Invalid
rank"/"Invalid file" are the source's, swapped as in the source). -/
def squareFrom (s : List Char) : Except String Square :=
  if s.length ≠ 2 then .error "Invalid length of square notation"
  else
    match s with
    | [a, b] =>
      let f := asciiToUpper a
      if f < 'A' ∨ 'H' < f then .error "Invalid rank"
      else
        let r := asciiToUpper b
        if r < '1' ∨ '8' < r then .error "Invalid file"
        else .ok ⟨f.toNat - 65, r.toNat - 49⟩
    | _ => .error "Invalid length of square notation"

/-- `src/fen.rs` lines 12-64: `import` — six space-separated fields; the
placement and side-to-move are parsed, the castling / clock / counter
fields only checked for presence; the en-passant field is `'-'` or a
square in notation. -/
def fenImport (fen_pos : List Char) : Except String FBoard :=
  let fields := splitChar ' ' fen_pos
  match fields.get? 0 with
  | none => .error "Piece placement field is missing"
  | some placement =>
  match import_piece_placement placement with
  | .error e => .error e
  | .ok grid =>
  match fields.get? 1 with
  | none => .error "Side-to-move field is missing"
  | some stm =>
  match import_side_to_move stm with
  | .error e => .error e
  | .ok side =>
  match fields.get? 2 with
  | none => .error "Castling ability field is missing"
  | some _castling =>
  match fields.get? 3 with
  | none => .error "En passant target square field is missing"
  | some ep =>
  let ep? : Except String (Option Square) :=
    if ep ≠ ['-'] then
      match squareFrom ep with
      | .error e => .error e
      | .ok sq => .ok (some sq)
    else .ok none
  match ep? with
  | .error e => .error e
  | .ok en_passant =>
  match fields.get? 4 with
  | none => .error "Halfmove clock field is missing"
  | some _half =>
  match fields.get? 5 with
  | none => .error "Halfmove counter field is missing"
  | some _full =>
    .ok { pieces := grid, side_to_move := side, en_passant := en_passant }

/-- `src/fen.rs` lines 206-223: the module's own `piece_to_letter` copy;
`none` models the `panic!("Invalid piece bits")` arms. -/
def piece_to_letter (piece_bits : PieceBits.Piece) : Option Char :=
  let ch? : Option Char :=
    if piece_type piece_bits = BITS_BISHOP then some 'b'
    else if piece_type piece_bits = BITS_KING then some 'k'
    else if piece_type piece_bits = BITS_KNIGHT then some 'n'
    else if piece_type piece_bits = BITS_PAWN then some 'p'
    else if piece_type piece_bits = BITS_QUEEN then some 'q'
    else if piece_type piece_bits = BITS_ROOK then some 'r'
    else none
  match ch? with
  | none => none
  | some ch =>
    if piece_color piece_bits = BITS_WHITE then some (asciiToUpper ch)
    else if piece_color piece_bits = BITS_BLACK then some ch
    else none

/-- Rust `usize::to_string` for the empty-run counters. -/
def digitsOf (n : Nat) : List Char := Nat.toDigits 10 n

/-- One iteration of `export`'s inner file loop (`src/fen.rs` lines
139-158): state is `(steps_to_next_piece, res)`.  Note the source pushes
`piece_to_letter(p_type)` where `p_type` is the *color-masked* result of
`piece_type(...)` bound by the match. -/
def rankStep (b : FBoard) (rank : Nat) (st : Option (Nat × List Char))
    (file : Nat) : Option (Nat × List Char) :=
  match st with
  | none => none
  | some (steps, acc) =>
    let p := fget_piece b ⟨file, rank⟩
    if piece_type p = BITS_NO_PIECE then
      let steps2 := steps + 1
      some (steps2, if file = 7 then acc ++ digitsOf steps2 else acc)
    else
      let acc2 := if 0 < steps then acc ++ digitsOf steps else acc
      match piece_to_letter (piece_type p) with
      | none => none
      | some ch => some (0, acc2 ++ [ch])

def exportRank (b : FBoard) (rank : Nat) (acc : List Char) :
    Option (List Char) :=
  match (List.range 8).foldl (rankStep b rank) (some (0, acc)) with
  | none => none
  | some (_, acc2) => some acc2

def exportRanks (b : FBoard) : List Nat → List Char → Option (List Char)
  | [], acc => some acc
  | rank :: rest, acc =>
    match exportRank b rank acc with
    | none => none
    | some acc2 => exportRanks b rest (if 0 < rank then acc2 ++ ['/'] else acc2)

/-- Modelled from the spec: `Square::to_str` (used by `export` for the
en-passant field) is absent from `src/square.rs`; per the spec §4.1 a
square renders "back to two-character notation (e.g. E2)". -/
def squareToStr (sq : Square) : List Char :=
  [Char.ofNat (65 + sq.fst), Char.ofNat (49 + sq.snd)]

/-- `src/fen.rs` lines 135-203: `export` — placement from rank 8 down to
rank 1 with empty runs collapsed, the side-to-move character, the fixed
`KQkq` placeholder, the en-passant square or `-`, and zeroed clock/counter
placeholders; `none` models the `panic!("Invalid color")` arm and the
panics of `piece_to_letter`. -/
def fenExport (b : FBoard) : Option (List Char) :=
  match exportRanks b (List.range 8).reverse [] with
  | none => none
  | some res =>
  let side? : Option (List Char) :=
    if b.side_to_move = BITS_WHITE then some (' ' :: ['w'])
    else if b.side_to_move = BITS_BLACK then some (' ' :: ['b'])
    else none
  match side? with
  | none => none
  | some sideStr =>
  let res2 := res ++ sideStr ++ " KQkq".toList
  let epStr := match b.en_passant with
    | none => ['-']
    | some sq => squareToStr sq
  some (res2 ++ [' '] ++ epStr ++ " 0".toList ++ " 0".toList)

/-- `export ∘ import`, `none` when the import errors or the export
panics. -/
def roundTrip (s : List Char) : Option (List Char) :=
  match fenImport s with
  | .ok b => fenExport b
  | .error _ => none

/-- The standard start position FEN (the first entry of the repository's
own `export_is_the_inverse_of_import` test). -/
def startFen : List Char :=
  "rnbqkbnr/pppppppp/8/8/8/8/PPPPPPPP/RNBQKBNR w KQkq - 0 1".toList

/-- What `export(import(startFen))` actually produces: every black piece
letter has been uppercased. -/
def startFenExported : List Char :=
  "RNBQKBNR/PPPPPPPP/8/8/8/8/PPPPPPPP/RNBQKBNR w KQkq - 0 0".toList

end Fen

/-! ## Theorems -/

namespace Board

/-- `idx` in bracket notation. -/
theorem idx_eq_getElem (g : Grid) (sq : Square) :
    idx g sq = (g[sq.fst]?).bind fun row => row[sq.snd]? := by
  simp [idx]

/-- On an 8×8 grid every in-range read returns (without panicking). -/
theorem idx_of_wf {g : Grid} (h8 : g.length = 8)
    (hrow : ∀ row ∈ g, row.length = 8) {a c : Nat} (ha : a < 8) (hc : c < 8) :
    ∃ cell, idx g ⟨a, c⟩ = some cell := by
  have ha' : a < g.length := by omega
  have hlen := hrow _ (List.getElem_mem ha')
  have hc' : c < g[a].length := by omega
  refine ⟨g[a][c], ?_⟩
  rw [idx_eq_getElem]
  rw [List.getElem?_eq_getElem ha']
  simp only [Option.some_bind]
  rw [List.getElem?_eq_getElem hc']

/-- A successful read is in range (8×8 grid). -/
theorem idx_some_bounds {g : Grid} (h8 : g.length = 8)
    (hrow : ∀ row ∈ g, row.length = 8) {sq : Square} {cell : Option Piece}
    (h : idx g sq = some cell) : sq.fst < 8 ∧ sq.snd < 8 := by
  rw [idx_eq_getElem] at h
  cases hga : g[sq.fst]? with
  | none => rw [hga] at h; cases h
  | some row =>
    rw [hga] at h
    simp only [Option.some_bind] at h
    have h1 := (List.getElem?_eq_some.mp hga).1
    have h2 := (List.getElem?_eq_some.mp h).1
    have hmem : row ∈ g := by
      rcases List.getElem?_eq_some.mp hga with ⟨hlt, heq⟩
      exact heq ▸ List.getElem_mem hlt
    have := hrow row hmem
    omega

/-- Writing then reading the same (in-range) cell. -/
theorem idx_setCell_self {g : Grid} (h8 : g.length = 8)
    (hrow : ∀ row ∈ g, row.length = 8) {sq : Square} (ha : sq.fst < 8)
    (hc : sq.snd < 8) (v : Option Piece) :
    idx (setCell g sq v) sq = some v := by
  have ha' : sq.fst < g.length := by omega
  have hlen := hrow _ (List.getElem_mem ha')
  unfold setCell
  rw [List.get?_eq_getElem?, List.getElem?_eq_getElem ha']
  rw [idx_eq_getElem]
  rw [List.getElem?_set_eq_of_lt _ (by simpa using ha')]
  simp only [Option.some_bind]
  rw [List.getElem?_set_eq_of_lt _ (by omega)]

/-- Writing one cell leaves every other cell unchanged. -/
theorem idx_setCell_ne {g : Grid} {sq sq' : Square} (h : sq' ≠ sq)
    (v : Option Piece) : idx (setCell g sq v) sq' = idx g sq' := by
  unfold setCell
  cases hga : g.get? sq.fst with
  | none => rfl
  | some row =>
    rw [List.get?_eq_getElem?] at hga
    by_cases hf : sq'.fst = sq.fst
    · have hs : sq'.snd ≠ sq.snd := by
        intro hs
        exact h (by cases sq; cases sq'; simp_all)
      rw [idx_eq_getElem, idx_eq_getElem, hf]
      rw [List.getElem?_set_eq_of_lt _ (List.getElem?_eq_some.mp hga).1, hga]
      simp only [Option.some_bind]
      rw [List.getElem?_set_ne (Ne.symm hs)]
    · rw [idx_eq_getElem, idx_eq_getElem]
      rw [List.getElem?_set_ne fun e => hf e.symm]

/-- `setCell` preserves the 8×8 shape. -/
theorem setCell_wf {g : Grid} (h8 : g.length = 8)
    (hrow : ∀ row ∈ g, row.length = 8) (sq : Square) (v : Option Piece) :
    (setCell g sq v).length = 8 ∧ ∀ row ∈ setCell g sq v, row.length = 8 := by
  unfold setCell
  cases hga : g.get? sq.fst with
  | none => exact ⟨h8, hrow⟩
  | some row =>
    rw [List.get?_eq_getElem?] at hga
    refine ⟨by simp [h8], ?_⟩
    intro r hr
    rcases List.mem_or_eq_of_mem_set hr with h' | h'
    · exact hrow _ h'
    · subst h'
      have hmem : row ∈ g := by
        rcases List.getElem?_eq_some.mp hga with ⟨hlt, heq⟩
        exact heq ▸ List.getElem_mem hlt
      have := hrow _ hmem
      simp [this]

/-- Inversion of a successful `move_piece` call. -/
theorem move_piece_ok_inv {b b' : BoardImpl} {fromSq toSq : Square}
    (h : move_piece b fromSq toSq = some (b', .ok ())) :
    ∃ piece, idx b.pieces fromSq = some (some piece) ∧
      get_color piece = b.player_turn ∧
      valid_move b piece fromSq toSq = some true ∧
      b' = { pieces := setCell (setCell b.pieces toSq (some (tag_as_moved piece)))
                fromSq none,
             player_turn := if b.player_turn = .WHITE then .BLACK else .WHITE } := by
  unfold move_piece at h
  cases hidx : idx b.pieces fromSq with
  | none => rw [hidx] at h; cases h
  | some cell =>
    rw [hidx] at h
    cases cell with
    | none => simp at h
    | some piece =>
      simp only at h
      split at h
      · simp at h
      · rename_i hturn
        cases hvm : valid_move b piece fromSq toSq with
        | none => rw [hvm] at h; cases h
        | some v =>
          rw [hvm] at h
          cases v with
          | false => simp at h
          | true =>
            simp only [Option.some.injEq, Prod.mk.injEq, and_true] at h
            exact ⟨piece, rfl, by push_neg at hturn; exact hturn,
              hvm, h.symm⟩

/-- Inversion of a failing `move_piece` call: every error path returns
before any mutation. -/
theorem move_piece_err_inv {b b' : BoardImpl} {fromSq toSq : Square}
    {msg : String}
    (h : move_piece b fromSq toSq = some (b', .error msg)) :
    b' = b ∧ (msg = "Square is empty" ∨ msg = "Not this player's turn to move" ∨
      msg = "Invalid move") := by
  unfold move_piece at h
  cases hidx : idx b.pieces fromSq with
  | none => rw [hidx] at h; cases h
  | some cell =>
    rw [hidx] at h
    cases cell with
    | none =>
      simp only [Option.some.injEq, Prod.mk.injEq, Except.error.injEq] at h
      exact ⟨h.1.symm, .inl h.2.symm⟩
    | some piece =>
      simp only at h
      split at h
      · simp only [Option.some.injEq, Prod.mk.injEq, Except.error.injEq] at h
        exact ⟨h.1.symm, .inr (.inl h.2.symm)⟩
      · cases hvm : valid_move b piece fromSq toSq with
        | none => rw [hvm] at h; cases h
        | some v =>
          rw [hvm] at h
          cases v with
          | false =>
            simp only [Option.some.injEq, Prod.mk.injEq, Except.error.injEq] at h
            exact ⟨h.1.symm, .inr (.inr h.2.symm)⟩
          | true => simp at h

/-- Inversion of `valid_move b piece fromSq toSq = some true`: basic
geometric facts every accepted move satisfies. -/
theorem valid_move_true_inv {b : BoardImpl} {piece : Piece}
    {fromSq toSq : Square} (h : valid_move b piece fromSq toSq = some true) :
    fromSq ≠ toSq ∧ toSq.fst < 8 ∧ toSq.snd < 8 := by
  unfold valid_move at h
  split at h
  · cases h
  · split at h
    · cases h
    · rename_i hne hb
      push_neg at hb
      exact ⟨hne, by omega, by omega⟩

/-- C1: the claim "the legal move set computed by move_piece excludes every
pseudo-legal move whose application would put the mover's own king in
check" fails on the code — `move_piece` performs no check-legality
filtering at all.  On `pinBoard` (white king e1, white knight e2, black
rook e8) the knight move e2→c3 is accepted, and afterwards the white king
is attacked along the e-file, although it was not attacked before. -/
theorem self_check_not_filtered_on_pin :
    move_piece pinBoard ⟨4, 1⟩ ⟨2, 2⟩ = some (pinBoardAfter, .ok ()) ∧
    in_check pinBoardAfter .WHITE = true ∧
    in_check pinBoard .WHITE = false := by decide

/-- C2: after any successful `move_piece` call the side to move differs
from its value before the call; after any failed (error-returning) call it
is unchanged. -/
theorem move_piece_turn_alternation (b b' : BoardImpl)
    (fromSq toSq : Square) (r : Except String Unit)
    (h : move_piece b fromSq toSq = some (b', r)) :
    (r = .ok () → b'.player_turn ≠ b.player_turn) ∧
    (∀ msg, r = .error msg → b'.player_turn = b.player_turn) := by
  constructor
  · intro hok
    subst hok
    obtain ⟨piece, _, _, _, hb'⟩ := move_piece_ok_inv h
    subst hb'
    cases hc : b.player_turn <;> simp [hc]
  · intro msg hmsg
    subst hmsg
    rw [(move_piece_err_inv h).1]

/-- C2 witness: on the start position, `move_piece(A2, A3)` succeeds and
flips the side to move. -/
theorem move_piece_turn_alternation_witness :
    ((Except.ok () : Except String Unit) = .ok () →
      afterStartA2A3.player_turn ≠ new_board.player_turn) ∧
    (∀ msg, (Except.ok () : Except String Unit) = .error msg →
      afterStartA2A3.player_turn = new_board.player_turn) :=
  move_piece_turn_alternation new_board afterStartA2A3 ⟨0, 1⟩ ⟨0, 2⟩
    (.ok ()) (by decide)

/-- C3: every failing `move_piece` call leaves the board completely
unchanged — the same `BoardImpl` (all 64 cells and the side to move) is
returned — and the error is one of the three `chess_error` messages, all
of which collapse to the single illegal-move outcome (`Err`) for the
caller; the move is never partially applied. -/
theorem move_piece_failure_leaves_board_unchanged (b b' : BoardImpl)
    (fromSq toSq : Square) (msg : String)
    (h : move_piece b fromSq toSq = some (b', .error msg)) :
    b' = b ∧ (msg = "Square is empty" ∨
      msg = "Not this player's turn to move" ∨ msg = "Invalid move") :=
  move_piece_err_inv h

/-- C3 witness: moving from the empty square d4 on the start position
fails with the board returned unchanged. -/
theorem move_piece_failure_leaves_board_unchanged_witness :
    new_board = new_board ∧ ("Square is empty" = "Square is empty" ∨
      "Square is empty" = "Not this player's turn to move" ∨
      "Square is empty" = "Invalid move") :=
  move_piece_failure_leaves_board_unchanged new_board new_board
    ⟨3, 3⟩ ⟨3, 4⟩ "Square is empty" (by decide)

/-- C8 (counterexample): `get_piece` is not total on arbitrary square
values — at `Square(0, 9)` the array indexing panics instead of returning
a piece value. -/
theorem get_piece_panics_at_out_of_range_square :
    get_piece new_board ⟨0, 9⟩ = none := by decide

/-- C8 (amended): on an 8×8 board, `get_piece` returns a value — the
"none" piece (Rust `None`) for empty squares — for every square whose two
components are below 8; out-of-range squares panic. -/
theorem get_piece_total_on_board_squares (b : BoardImpl) (sq : Square)
    (hWF : WF b) (h1 : sq.fst < 8) (h2 : sq.snd < 8) :
    ∃ v, get_piece b sq = some v := by
  unfold get_piece
  exact idx_of_wf hWF.1 hWF.2 h1 h2

/-- C8 witness: at a1 on the start position `get_piece` returns a value. -/
theorem get_piece_total_on_board_squares_witness :
    ∃ v, get_piece new_board ⟨0, 0⟩ = some v :=
  get_piece_total_on_board_squares new_board ⟨0, 0⟩
    (by decide) (by decide) (by decide)

/-- C9: moving a bishop, rook, queen or king of the side to move to an
on-board destination distinct from the origin and not occupied by a
same-color piece always hits a `todo!()` branch of `valid_move` — a panic,
not a success or error return. -/
theorem slider_or_king_move_hits_todo_panic (b : BoardImpl)
    (fromSq toSq : Square) (piece : Piece) (hWF : WF b)
    (hfrom : idx b.pieces fromSq = some (some piece))
    (hkind : sliderOrKing piece = true)
    (hturn : get_color piece = b.player_turn)
    (hb1 : toSq.fst < 8) (hb2 : toSq.snd < 8) (hne : fromSq ≠ toSq)
    (hcap : ∀ q, idx b.pieces toSq = some (some q) →
      get_color q ≠ get_color piece) :
    move_piece b fromSq toSq = none := by
  obtain ⟨h8, hrow⟩ := hWF
  obtain ⟨cell, hcell⟩ := idx_of_wf h8 hrow hb1 hb2
  have hcell' : idx b.pieces toSq = some cell := hcell
  have hcond : ¬ some (get_color piece) = cell.map get_color := by
    cases cell with
    | none => simp
    | some q =>
      simp only [Option.map_some', Option.some.injEq]
      exact fun e => hcap q hcell' e.symm
  have hbb : ¬ (8 ≤ toSq.fst ∨ 8 ≤ toSq.snd) := by omega
  have hvm : valid_move b piece fromSq toSq = none := by
    cases piece <;> simp_all [valid_move, sliderOrKing]
  simp only [move_piece, hfrom, hvm, hturn]
  simp

/-- C9 witness: the bishop move a1→b2 on `bishopBoard` panics. -/
theorem slider_or_king_move_hits_todo_panic_witness :
    move_piece bishopBoard ⟨0, 0⟩ ⟨1, 1⟩ = none :=
  slider_or_king_move_hits_todo_panic bishopBoard ⟨0, 0⟩ ⟨1, 1⟩
    (.BISHOP .WHITE) (by decide) (by decide) (by decide) (by decide)
    (by decide) (by decide) (by decide)
    (fun q hq => by
      rw [show idx bishopBoard.pieces ⟨1, 1⟩ = some none from by decide] at hq
      simp at hq)

/-- C10: a successful `move_piece` changes exactly the two cells involved:
the origin becomes empty, the destination holds the moved piece with its
moved flag set (`tag_as_moved`), and every other square is unchanged. -/
theorem move_piece_success_frame (b b' : BoardImpl) (fromSq toSq : Square)
    (piece : Piece) (hWF : WF b)
    (hfrom : idx b.pieces fromSq = some (some piece))
    (h : move_piece b fromSq toSq = some (b', .ok ())) :
    idx b'.pieces fromSq = some none ∧
    idx b'.pieces toSq = some (some (tag_as_moved piece)) ∧
    ∀ sq : Square, sq ≠ fromSq → sq ≠ toSq →
      idx b'.pieces sq = idx b.pieces sq := by
  obtain ⟨h8, hrow⟩ := hWF
  obtain ⟨p2, hfrom2, _, hvm, hb'⟩ := move_piece_ok_inv h
  have hp2 : p2 = piece := by simpa using hfrom2.symm.trans hfrom
  subst hp2
  obtain ⟨hne, hb1, hb2⟩ := valid_move_true_inv hvm
  obtain ⟨hf1, hf2⟩ := idx_some_bounds h8 hrow hfrom
  obtain ⟨h8', hrow'⟩ :=
    setCell_wf h8 hrow toSq (some (tag_as_moved p2))
  subst hb'
  refine ⟨?_, ?_, ?_⟩
  · exact idx_setCell_self h8' hrow' hf1 hf2 none
  · rw [idx_setCell_ne (Ne.symm hne)]
    exact idx_setCell_self h8 hrow hb1 hb2 _
  · intro sq hsf hst
    rw [idx_setCell_ne hsf, idx_setCell_ne hst]

/-- C10 witness: the frame property instantiated on `move_piece(A2, A3)`
from the start position — the origin a2 is emptied. -/
theorem move_piece_success_frame_witness :
    idx afterStartA2A3.pieces ⟨0, 1⟩ = some none :=
  (move_piece_success_frame new_board afterStartA2A3 ⟨0, 1⟩ ⟨0, 2⟩
    (.PAWN .WHITE false) (by decide) (by decide) (by decide)).1

/-- C6 (counterexample): the two-square pawn advance is *not* gated on the
starting rank: on `strayPawnBoard` the unmoved white pawn stands on rank 3
(not the starting rank 1), yet its two-square advance d4→d6 is accepted
by `move_piece`. -/
theorem pawn_two_step_accepted_off_start_rank :
    moveOk strayPawnBoard ⟨3, 3⟩ ⟨3, 5⟩ = true ∧ (3 : Nat) ≠ 1 := by decide


/-- The ascending vertical two-square path computed by
`perpendicular_path` is the intervening square followed by the
destination. -/
theorem perpendicular_path_up2 (f s : Nat) :
    perpendicular_path ⟨f, s⟩ ⟨f, s + 2⟩ =
      some (some [⟨f, s + 1⟩, ⟨f, s + 2⟩]) := by
  have hne : (⟨f, s⟩ : Square) ≠ ⟨f, s + 2⟩ := by
    simp only [ne_eq, Square.mk.injEq, true_and]
    omega
  unfold perpendicular_path
  rw [if_neg hne, if_pos rfl, if_pos (by omega : s < s + 2)]
  have h2 : s + 2 + 1 - (s + 1) = 2 := by omega
  rw [h2]
  simp [List.range']

/-- The descending vertical two-square path computed by
`perpendicular_path` is the intervening square followed by the
destination. -/
theorem perpendicular_path_down2 (f s : Nat) (hs : 2 ≤ s) :
    perpendicular_path ⟨f, s⟩ ⟨f, s - 2⟩ =
      some (some [⟨f, s - 1⟩, ⟨f, s - 2⟩]) := by
  have hne : (⟨f, s⟩ : Square) ≠ ⟨f, s - 2⟩ := by
    simp only [ne_eq, Square.mk.injEq, true_and]
    omega
  unfold perpendicular_path
  rw [if_neg hne, if_pos rfl, if_neg (by omega : ¬ s < s - 2)]
  have h2 : s - (s - 2) = 2 := by omega
  rw [h2]
  have h3 : s - 2 + 1 = s - 1 := by omega
  simp [List.range', h3]

/-- C6 (amended): `move_piece` accepts the two-square straight pawn
advance iff the pawn's has-moved flag is unset and both the intervening
square and the destination square are empty — the code gates the advance
on the moved flag, not on the pawn standing on its starting rank. -/
theorem pawn_two_step_iff_unmoved_and_empty (b : BoardImpl) (f s : Nat)
    (c : Color) (m : Bool) (hWF : WF b) (hf : f < 8)
    (hlo : c = .BLACK → 2 ≤ s ∧ s < 8) (hhi : c = .WHITE → s + 2 < 8)
    (hpawn : idx b.pieces ⟨f, s⟩ = some (some (.PAWN c m)))
    (hturn : b.player_turn = c) :
    moveOk b ⟨f, s⟩ ⟨f, if c = .WHITE then s + 2 else s - 2⟩ = true ↔
      (m = false ∧
       idx b.pieces ⟨f, if c = .WHITE then s + 1 else s - 1⟩ = some none ∧
       idx b.pieces ⟨f, if c = .WHITE then s + 2 else s - 2⟩ = some none) := by
  obtain ⟨h8, hrow⟩ := hWF
  cases c with
  | WHITE =>
    have hs2 := hhi rfl
    simp only [reduceIte]
    obtain ⟨cmid, hmid⟩ := idx_of_wf h8 hrow hf (show s + 1 < 8 by omega)
    obtain ⟨cdst, hdst⟩ := idx_of_wf h8 hrow hf (show s + 2 < 8 by omega)
    have hne : (⟨f, s⟩ : Square) ≠ ⟨f, s + 2⟩ := by
      simp only [ne_eq, Square.mk.injEq, true_and]; omega
    have h1 : ¬ (s + 2 ≤ s) := by omega
    have hb2 : ¬ (8 ≤ f ∨ 8 ≤ s + 2) := by omega
    have hvpm : valid_pawn_move b .WHITE m ⟨f, s⟩ ⟨f, s + 2⟩ =
        some (!m && (cmid.isNone && cdst.isNone)) := by
      simp only [valid_pawn_move, perpendicular_path_up2]
      cases m with
      | true => simp
      | false =>
        cases cmid with
        | some p => simp [h1, cellsEmpty, hmid]
        | none =>
          cases cdst with
          | some p => simp [h1, cellsEmpty, hmid, hdst]
          | none => simp [h1, cellsEmpty, hmid, hdst]
    have hvm : valid_move b (.PAWN .WHITE m) ⟨f, s⟩ ⟨f, s + 2⟩ =
        some (!m && (cmid.isNone && cdst.isNone)) := by
      simp only [valid_move, hdst, get_color]
      rw [if_neg hne, if_neg hb2]
      cases cdst with
      | none => simp [hvpm]
      | some q =>
        by_cases hq : get_color q = .WHITE
        · simp [hq]
        · simp [hq, Ne.symm hq, hvpm]
    have hmk : moveOk b ⟨f, s⟩ ⟨f, s + 2⟩ =
        (!m && (cmid.isNone && cdst.isNone)) := by
      unfold moveOk
      simp only [move_piece, hpawn, get_color, hturn, hvm]
      cases (!m && (cmid.isNone && cdst.isNone)) <;> simp
    rw [hmk, hmid, hdst]
    simp [Bool.and_eq_true, Option.isNone_iff_eq_none, Bool.not_eq_true']
  | BLACK =>
    obtain ⟨hs0, hs8⟩ := hlo rfl
    show moveOk b ⟨f, s⟩ ⟨f, s - 2⟩ = true ↔
      (m = false ∧
       idx b.pieces ⟨f, s - 1⟩ = some none ∧
       idx b.pieces ⟨f, s - 2⟩ = some none)
    obtain ⟨cmid, hmid⟩ := idx_of_wf h8 hrow hf (show s - 1 < 8 by omega)
    obtain ⟨cdst, hdst⟩ := idx_of_wf h8 hrow hf (show s - 2 < 8 by omega)
    have hne : (⟨f, s⟩ : Square) ≠ ⟨f, s - 2⟩ := by
      simp only [ne_eq, Square.mk.injEq, true_and]; omega
    have h1 : ¬ (s ≤ s - 2) := by omega
    have hb2 : ¬ (8 ≤ f ∨ 8 ≤ s - 2) := by omega
    have hvpm : valid_pawn_move b .BLACK m ⟨f, s⟩ ⟨f, s - 2⟩ =
        some (!m && (cmid.isNone && cdst.isNone)) := by
      simp only [valid_pawn_move, perpendicular_path_down2 f s hs0]
      cases m with
      | true => simp
      | false =>
        cases cmid with
        | some p => simp [h1, cellsEmpty, hmid]
        | none =>
          cases cdst with
          | some p => simp [h1, cellsEmpty, hmid, hdst]
          | none => simp [h1, cellsEmpty, hmid, hdst]
    have hvm : valid_move b (.PAWN .BLACK m) ⟨f, s⟩ ⟨f, s - 2⟩ =
        some (!m && (cmid.isNone && cdst.isNone)) := by
      simp only [valid_move, hdst, get_color]
      rw [if_neg hne, if_neg hb2]
      cases cdst with
      | none => simp [hvpm]
      | some q =>
        by_cases hq : get_color q = .BLACK
        · simp [hq]
        · simp [hq, Ne.symm hq, hvpm]
    have hmk : moveOk b ⟨f, s⟩ ⟨f, s - 2⟩ =
        (!m && (cmid.isNone && cdst.isNone)) := by
      unfold moveOk
      simp only [move_piece, hpawn, get_color, hturn, hvm]
      cases (!m && (cmid.isNone && cdst.isNone)) <;> simp
    rw [hmk, hmid, hdst]
    simp [Bool.and_eq_true, Option.isNone_iff_eq_none, Bool.not_eq_true']

/-- C6 witness: instantiated on the start-position pawn e2 (f = 4, s = 1,
white, unmoved): e3 and e4 are empty, so the advance e2→e4 is accepted. -/
theorem pawn_two_step_iff_unmoved_and_empty_witness :
    moveOk new_board ⟨4, 1⟩
        ⟨4, if Color.WHITE = Color.WHITE then 1 + 2 else 1 - 2⟩ = true ↔
      (false = false ∧
       idx new_board.pieces
         ⟨4, if Color.WHITE = Color.WHITE then 1 + 1 else 1 - 1⟩ = some none ∧
       idx new_board.pieces
         ⟨4, if Color.WHITE = Color.WHITE then 1 + 2 else 1 - 2⟩ = some none) :=
  pawn_two_step_iff_unmoved_and_empty new_board 4 1 .WHITE false (by decide)
    (by decide) (by decide) (by decide) (by decide) (by decide)

/-- C7: on a board that is empty except for one white knight, the set of
destinations accepted by `move_piece` from the knight's square is exactly
the spec's offset set: the on-board squares among (f±1, r±2), (f±2, r±1). -/
theorem knight_geometry_exact :
    ∀ f r tf tr : Fin 8,
      moveOk (knightBoard f.val r.val) ⟨f.val, r.val⟩ ⟨tf.val, tr.val⟩ = true ↔
        (tf.val, tr.val) ∈ specKnightTargets f.val r.val := by decide

end Board

namespace PieceBits

/-- C5: the piece-letter conversion is *not* an inverse pair:
`piece_to_letter` does produce the notation letter (uppercase white,
lowercase black), but `letter_to_piece` combines the color and kind bits
with `&` instead of `|`, so every recognized letter parses to
`BITS_NO_PIECE` (0) — neither the kind nor the color survives. -/
theorem letter_to_piece_collapses_to_no_piece :
    piece_to_letter (Nat.lor BITS_KNIGHT BITS_WHITE) = some 'N' ∧
    letter_to_piece 'N' = .ok BITS_NO_PIECE ∧
    piece_to_letter (Nat.lor BITS_KNIGHT BITS_BLACK) = some 'n' ∧
    letter_to_piece 'n' = .ok BITS_NO_PIECE ∧
    piece_type BITS_NO_PIECE ≠ BITS_KNIGHT := by decide

end PieceBits

namespace Fen

/-- C4: the FEN round-trip fails on the standard start position (the first
input of the repository's own `export_is_the_inverse_of_import` test):
`export` passes the color-masked kind bits to `piece_to_letter`, so every
black piece is emitted uppercase.  The piece-placement field of the output
differs from the input's, while the side-to-move field does round-trip. -/
theorem export_import_breaks_on_start_position :
    roundTrip startFen = some startFenExported ∧
    (splitChar ' ' startFenExported).get? 0 ≠ (splitChar ' ' startFen).get? 0 ∧
    (splitChar ' ' startFenExported).get? 1 = (splitChar ' ' startFen).get? 1 := by
  decide

end Fen

end Chess
